import Mathlib

/-!
Verification of the SHAD performance-analyzer log pipeline
(`script/slog.py`) against its natural-language specification.

The Python source is shallowly embedded:
* strings are `List Char`;
* Python `datetime` values are a record of numeric fields;
* floating-point durations are modelled exactly over `ℚ`;
* the mutable `SLogAnalysis` instance state (`self.fileList`, `self.df`)
  is an explicit state record threaded through the operations.
-/

/-- Opening curly brace character (ASCII 123). -/
def lbrace : Char := Char.ofNat 123

/-- Closing curly brace character (ASCII 125). -/
def rbrace : Char := Char.ofNat 125

/-- ASCII upper-casing of one character; embeds Python `str.upper` on
the ASCII range (the only range the filters use). -/
def upperChar (c : Char) : Char :=
  if 'a' ≤ c ∧ c ≤ 'z' then Char.ofNat (c.toNat - 32) else c

/-- ASCII lower-casing of one character; embeds Python `str.lower`. -/
def lowerChar (c : Char) : Char :=
  if 'A' ≤ c ∧ c ≤ 'Z' then Char.ofNat (c.toNat + 32) else c

/-- Python `s.upper()` on an ASCII string. -/
def upperS (s : List Char) : List Char := s.map upperChar

/-- Python `s.lower()` on an ASCII string. -/
def lowerS (s : List Char) : List Char := s.map lowerChar

/-- Decimal digit characters of a natural number, fuel-indexed
(the fuel `n + 1` always suffices); embeds Python `str` on `int ≥ 0`. -/
def natCharsCore (fuel n : Nat) : List Char :=
  match fuel with
  | 0 => []
  | fuel + 1 =>
    if n < 10 then [Nat.digitChar n]
    else natCharsCore fuel (n / 10) ++ [Nat.digitChar (n % 10)]

/-- Decimal digit characters of a natural number. -/
def natChars (n : Nat) : List Char := natCharsCore (n + 1) n

/-- Embeds Python `str` on `int` (sign handling included). -/
def intChars (i : Int) : List Char :=
  if i < 0 then '-' :: natChars (-i).toNat else natChars i.toNat

/-- Embeds `os.path.join(d, f)` for two POSIX path components
(`posixpath.join`: an absolute second component wins; a separator is
inserted only when `d` is nonempty and does not already end in one). -/
def pjoin (d f : List Char) : List Char :=
  if f.head? = some '/' then f
  else if d = [] then f
  else if d.getLast? = some '/' then d ++ f
  else d ++ '/' :: f

/-- Embeds `SLogAnalysis.getLogFiles` (script/slog.py lines 352-396).

* `dir` is `self.dir`; `dirFiles` is the directory listing already
  restricted to regular files (`[f for f in listdir(dir) if isfile(join(dir,f))]`);
* `dateStr` renders a calendar day (modelled as an ordinal day number)
  the way Python `str(date)` does; it is kept abstract because the
  claims hold for every rendering;
* `runtime`, `locality`, `startDate`, `endDate` are the four filters,
  with Python `None` as `Option.none`.

Branch 1 (runtime/locality given, or start date without end date):
build one token `RUNTIME.upper()_` + `locality_` + `str(startDate)`
(each part only when its filter is active) and keep the files whose
name contains it.  Branch 2 (both dates, no branch-1 trigger): scan
each day in `[startDate, endDate)` and keep files containing the
runtime/locality prefix followed by that day, appending per day (so a
file matching several days is appended several times, as in the
Python list-comprehension loop).  Otherwise `self.fileList` stays the
empty list it was reset to. -/
def getLogFiles (dir : List Char) (dirFiles : List (List Char))
    (dateStr : Nat → List Char) (runtime : List Char) (locality : Int)
    (startDate endDate : Option Nat) : List (List Char) :=
  if 0 < runtime.length ∨ 0 ≤ locality ∨ (startDate.isSome ∧ endDate.isNone) then
    let fs : List Char :=
      (if 0 < runtime.length then upperS runtime ++ ['_'] else []) ++
      (if 0 ≤ locality then intChars locality ++ ['_'] else []) ++
      (match startDate, endDate with
       | some d, none => dateStr d
       | _, _ => [])
    (dirFiles.filter fun f => decide (fs <:+: f)).map (pjoin dir)
  else
    match startDate, endDate with
    | some d1, some d2 =>
      let fs : List Char :=
        (if 0 < runtime.length then upperS runtime ++ ['_'] else []) ++
        (if 0 ≤ locality then intChars locality ++ ['_'] else [])
      ((List.range (d2 - d1)).map fun x =>
        (dirFiles.filter fun f => decide ((fs ++ dateStr (d1 + x)) <:+: f)).map
          (pjoin dir)).flatten
    | _, _ => []

/-- Embeds the per-line repair step of `SLogAnalysis.readFiles`
(script/slog.py lines 417-425): a line whose final character is not a
comma loses that final character; the overall last line additionally
loses its (new) final character, replaced by `]`. -/
def processLine (isLast : Bool) (line : List Char) : List Char :=
  let l1 := if line.getLast? = some ',' then line else line.dropLast
  if isLast then l1.dropLast ++ [']'] else l1

/-- The concatenated bodies written by `readFiles`' rewrite loop: every
line is processed, the last one (`b == a`) with the `isLast` flag. -/
def mergeBody : List (List Char) → List Char
  | [] => []
  | [l] => processLine true l
  | l :: l' :: ls => processLine false l ++ mergeBody (l' :: ls)

/-- Embeds the file-merging part of `SLogAnalysis.readFiles`
(script/slog.py lines 409-425): the temp file receives `[` and then
every repaired line of the concatenated selected files. -/
def mergeLines (lines : List (List Char)) : List Char :=
  '[' :: mergeBody lines

/-- A source log line as the spec describes it: a JSON object fragment
followed by a comma, optionally followed by the newline terminator
`fileinput` leaves on all but a file's unterminated final line. -/
def commaLine (frag : List Char) (nl : Bool) : List Char :=
  frag ++ ',' :: (if nl then ['\n'] else [])

/-- JSON values, used to state what 'parses as a syntactically valid
JSON array' means for the merged artifact. -/
inductive Json where
  | null : Json
  | bool (b : Bool) : Json
  | num (n : Int) : Json
  | str (s : List Char) : Json
  | arr (xs : List Json) : Json
  | obj (fields : List (List Char × Json)) : Json

/-- String-body escaping for the canonical JSON serialization. -/
def escChar (c : Char) : List Char :=
  if c = '"' ∨ c = '\\' then ['\\', c] else [c]

mutual

/-- Canonical serialization of a JSON value (minimal whitespace). -/
def Json.render : Json → List Char
  | .null => "null".toList
  | .bool true => "true".toList
  | .bool false => "false".toList
  | .num n => intChars n
  | .str s => '"' :: (s.map escChar).flatten ++ ['"']
  | .arr xs => '[' :: Json.renderList xs ++ [']']
  | .obj fs => lbrace :: Json.renderFields fs ++ [rbrace]

/-- Comma-separated serialization of a list of JSON values. -/
def Json.renderList : List Json → List Char
  | [] => []
  | [x] => Json.render x
  | x :: y :: xs => Json.render x ++ ',' :: Json.renderList (y :: xs)

/-- Comma-separated serialization of the members of a JSON object. -/
def Json.renderFields : List (List Char × Json) → List Char
  | [] => []
  | [(k, v)] => '"' :: (k.map escChar).flatten ++ '"' :: ':' :: Json.render v
  | (k, v) :: f :: fs =>
      '"' :: (k.map escChar).flatten ++ '"' :: ':' :: Json.render v ++
        ',' :: Json.renderFields (f :: fs)

end

/-- Comma-separated concatenation of raw fragments, mirroring the shape
of `Json.renderList` over already-rendered fragments. -/
def sepComma : List (List Char) → List Char
  | [] => []
  | [x] => x
  | x :: y :: xs => x ++ ',' :: sepComma (y :: xs)

/-- A Python `datetime.datetime` value (year through microsecond). -/
structure PyDateTime where
  year : Nat
  month : Nat
  day : Nat
  hour : Nat
  minute : Nat
  second : Nat
  micro : Nat
deriving DecidableEq, Repr

/-- Two-digit zero-padded decimal rendering (`%02d` for values < 100). -/
def pad2 (n : Nat) : List Char :=
  [Nat.digitChar (n / 10 % 10), Nat.digitChar (n % 10)]

/-- Four-digit zero-padded decimal rendering (`%04d` for values < 10000;
Python `datetime` years are at most 9999). -/
def pad4 (n : Nat) : List Char :=
  [Nat.digitChar (n / 1000 % 10), Nat.digitChar (n / 100 % 10),
   Nat.digitChar (n / 10 % 10), Nat.digitChar (n % 10)]

/-- Six-digit zero-padded decimal rendering (`%06d` for values < 10^6). -/
def pad6 (n : Nat) : List Char :=
  [Nat.digitChar (n / 100000 % 10), Nat.digitChar (n / 10000 % 10),
   Nat.digitChar (n / 1000 % 10), Nat.digitChar (n / 100 % 10),
   Nat.digitChar (n / 10 % 10), Nat.digitChar (n % 10)]

/-- Embeds Python `str(datetime)`: `YYYY-MM-DD HH:MM:SS` with a space
separator, plus `.ffffff` only when the microsecond field is nonzero. -/
def strOfDatetime (d : PyDateTime) : List Char :=
  pad4 d.year ++ ('-' :: (pad2 d.month ++ ('-' :: (pad2 d.day ++ (' ' ::
    (pad2 d.hour ++ (':' :: (pad2 d.minute ++ (':' :: (pad2 d.second ++
    (if d.micro = 0 then [] else '.' :: pad6 d.micro)))))))))))

/-- One token of a `strptime` format string: a conversion directive
(`%Y %m %d %H %M %S %f`) or a literal character. -/
inductive FmtTok where
  | dirY : FmtTok
  | dirm : FmtTok
  | dird : FmtTok
  | dirH : FmtTok
  | dirM : FmtTok
  | dirS : FmtTok
  | dirf : FmtTok
  | lit (c : Char) : FmtTok
deriving DecidableEq, Repr

/-- Splits a `strptime` format string into tokens; `none` models the
error `strptime` raises on a directive outside the supported set. -/
def tokenizeFmt : List Char → Option (List FmtTok)
  | [] => some []
  | '%' :: c :: rest =>
    (match c with
     | 'Y' => some FmtTok.dirY
     | 'm' => some FmtTok.dirm
     | 'd' => some FmtTok.dird
     | 'H' => some FmtTok.dirH
     | 'M' => some FmtTok.dirM
     | 'S' => some FmtTok.dirS
     | 'f' => some FmtTok.dirf
     | _ => none).bind
      fun tok => (tokenizeFmt rest).map (tok :: ·)
  | ['%'] => none
  | c :: rest => (tokenizeFmt rest).map (FmtTok.lit c :: ·)

/-- Takes up to `k` leading decimal-digit characters. -/
def spanDigits (k : Nat) (s : List Char) : List Char × List Char :=
  match k, s with
  | 0, s => ([], s)
  | _ + 1, [] => ([], [])
  | k + 1, c :: r =>
    if c.isDigit then
      let p := spanDigits k r
      (c :: p.1, p.2)
    else ([], c :: r)

/-- Numeric value of a string of decimal digits. -/
def digitsToNat (ds : List Char) : Nat :=
  ds.foldl (fun a c => a * 10 + (c.toNat - 48)) 0

/-- Runs a tokenized `strptime` format against a text, accumulating the
parsed fields over the 1900-01-01 default; `none` models `ValueError`
(a failed literal/digit match, or unconverted trailing data). The `%f`
directive accepts 1-6 digits and scales to microseconds. -/
def matchToks : List FmtTok → List Char → PyDateTime → Option PyDateTime
  | [], [], acc => some acc
  | [], _ :: _, _ => none
  | FmtTok.dirY :: ts, s, acc =>
    let p := spanDigits 4 s
    if p.1 = [] then none else matchToks ts p.2 { acc with year := digitsToNat p.1 }
  | FmtTok.dirm :: ts, s, acc =>
    let p := spanDigits 2 s
    if p.1 = [] then none else matchToks ts p.2 { acc with month := digitsToNat p.1 }
  | FmtTok.dird :: ts, s, acc =>
    let p := spanDigits 2 s
    if p.1 = [] then none else matchToks ts p.2 { acc with day := digitsToNat p.1 }
  | FmtTok.dirH :: ts, s, acc =>
    let p := spanDigits 2 s
    if p.1 = [] then none else matchToks ts p.2 { acc with hour := digitsToNat p.1 }
  | FmtTok.dirM :: ts, s, acc =>
    let p := spanDigits 2 s
    if p.1 = [] then none else matchToks ts p.2 { acc with minute := digitsToNat p.1 }
  | FmtTok.dirS :: ts, s, acc =>
    let p := spanDigits 2 s
    if p.1 = [] then none else matchToks ts p.2 { acc with second := digitsToNat p.1 }
  | FmtTok.dirf :: ts, s, acc =>
    let p := spanDigits 6 s
    if p.1 = [] then none
    else matchToks ts p.2 { acc with micro := digitsToNat p.1 * 10 ^ (6 - p.1.length) }
  | FmtTok.lit c :: ts, s, acc =>
    match s with
    | [] => none
    | c' :: r => if c' = c then matchToks ts r acc else none

/-- The `strptime` defaults: missing fields come from 1900-01-01. -/
def strptimeBase : PyDateTime := ⟨1900, 1, 1, 0, 0, 0, 0⟩

/-- Embeds `datetime.datetime.strptime(s, fmt)` for the directives this
program uses; `none` models a raised exception. -/
def strptime (s fmt : List Char) : Option PyDateTime :=
  (tokenizeFmt fmt).bind fun toks => matchToks toks s strptimeBase

/-- The value `SDateTime.formatDateTime` hands back: a raw string on
the empty-text/empty-format path, a datetime object everywhere else. -/
inductive FDRes where
  | asStr (s : List Char) : FDRes
  | asDT (d : PyDateTime) : FDRes
deriving DecidableEq, Repr

/-- Embeds `SDateTime.formatDateTime` (script/slog.py lines 57-75).
`now` is the ambient `datetime.now()` value of the call.  `.error ()`
models an exception escaping the method: the `try` only guards the
first `strptime` call, so a failure of the fallback
`strptime(str(datetime.now()), format)` propagates to the caller. -/
def formatDateTime (now : PyDateTime) (t fmt : List Char) : Except Unit FDRes :=
  if t.length = 0 then
    if fmt.length = 0 then Except.ok (FDRes.asStr (strOfDatetime now))
    else
      match strptime (strOfDatetime now) fmt with
      | some d => Except.ok (FDRes.asDT d)
      | none => Except.error ()
  else
    match strptime t fmt with
    | some d => Except.ok (FDRes.asDT d)
    | none =>
      match strptime (strOfDatetime now) fmt with
      | some d => Except.ok (FDRes.asDT d)
      | none => Except.error ()

/-- The default pattern of `formatDateTime`. -/
def defaultFmt : List Char := "%Y-%m-%dT%H:%M:%S.%fZ".toList

/-- Python `x % y` on nonnegative reals (here exact rationals):
`x - y * floor(x / y)`. -/
def pymod (x y : ℚ) : ℚ := x - y * ⌊x / y⌋

/-- Embeds `numpy.arange(0, stop, step)` for positive `step`: the
multiples `i * step` for `i < ceil(stop / step)`, modelled exactly
over `ℚ`. -/
def arangeQ (stop step : ℚ) : List ℚ :=
  (List.range ⌈stop / step⌉.toNat).map fun i => (i : ℚ) * step

/-- Embeds the time-axis computation of `SLogAnalysis.analyzeEventMatric`
(script/slog.py lines 606-609): `dur` is the elapsed time between the
earliest and latest record in the chosen unit, `ts` the bucket step;
when `ts` does not divide `dur` the code adds a whole step to `dur`,
then takes `arange(0, dur, ts)`. -/
def analyzeTimeAxis (dur ts : ℚ) : List ℚ :=
  let dur2 := if pymod dur ts ≠ 0 then dur + ts else dur
  arangeQ dur2 ts

/-- Modelled from the spec's words for comparison: `totalDuration`
'padded up to the next multiple of `step` if it does not already
divide evenly', i.e. `step * ceil(dur / step)` in the non-dividing
case. -/
def specPadToMultiple (dur ts : ℚ) : ℚ :=
  if (⌈dur / ts⌉ : ℚ) = dur / ts then dur else ts * ⌈dur / ts⌉

/-- Embeds `SLogAnalysis.__timeDistanceofAnEvent`
(script/slog.py lines 483-509): `tsVals` are the records' timestamps
as seconds, `st` the reference start time as seconds (so `i - st` is
`(formatDateTime(i) - t).total_seconds()`), and the recognized unit
tokens rescale the raw seconds. -/
def timeDistanceofAnEvent (tsVals : List ℚ) (st : ℚ) (unit : List Char) : List ℚ :=
  let tis := tsVals.map fun i => i - st
  let u := lowerS unit
  if u = "m".toList ∨ u = "min".toList then tis.map fun i => i / 60
  else if u = "h".toList ∨ u = "hr".toList ∨ u = "hour".toList then
    tis.map fun i => i / (60 * 60)
  else if u = "d".toList ∨ u = "day".toList then tis.map fun i => i / (60 * 60 * 24)
  else if u = "mn".toList ∨ u = "month".toList then
    tis.map fun i => i / (60 * 60 * 24 * 30)
  else tis

/-- Modelled from the spec's words for comparison: the unit divisor
table (seconds 1, minutes 60, hours 3600, days 86400, months 2592000,
matched case-insensitively; anything unrecognized leaves raw seconds,
divisor 1). -/
def specUnitDivisor (unit : List Char) : ℚ :=
  let u := lowerS unit
  if u = "m".toList ∨ u = "min".toList then 60
  else if u = "h".toList ∨ u = "hr".toList ∨ u = "hour".toList then 3600
  else if u = "d".toList ∨ u = "day".toList then 86400
  else if u = "mn".toList ∨ u = "month".toList then 2592000
  else 1

/-- One row of the ingested dataset: the LogRecord columns. -/
structure Row where
  en : List Char
  ts : List Char
  et : ℚ
  isz : ℚ
  osz : ℚ
  li : ℚ
deriving DecidableEq

/-- Embeds the aggregation of `SLogAnalysis.eventFrequencyPlot`
(script/slog.py line 450): `df.groupby('EN').size()` — one
`(event name, row count)` pair per distinct event name.  The pandas
group iteration order is not claimed by the spec; the model lists
groups in first-occurrence order. -/
def eventFrequencyCounts (rows : List Row) : List (List Char × Nat) :=
  let ens := rows.map Row.en
  ens.dedup.map fun k => (k, ens.count k)

/-- The dataframe held in `self.df`: the ingested rows plus the `TIS`
column `__timeDistanceofAnEvent` may attach later. -/
structure DFrame where
  rows : List Row
  tis : Option (List ℚ)
deriving DecidableEq

/-- The mutable `SLogAnalysis` instance state relevant to ingestion:
the selected files, the cached dataframe (`None` before the first
successful build), and a counter of how many times the `readFiles`
file-reading body has run. -/
structure LogState where
  fileList : List (List Char)
  df : Option DFrame
  reads : Nat
deriving DecidableEq

/-- Embeds `SLogAnalysis.readFiles` (script/slog.py lines 402-429) at
the state level: with a nonempty selection it merges the files, builds
the dataframe (`build` abstracts merge-plus-`read_json` over the file
contents) and stores it; with an empty selection it does nothing. -/
def readFiles (build : List (List Char) → List Row) (s : LogState) : LogState :=
  if 0 < s.fileList.length then
    { s with df := some ⟨build s.fileList, none⟩, reads := s.reads + 1 }
  else s

/-- The shared `if self.df is None: self.readFiles()` prologue of the
three aggregation methods. -/
def ensureDF (build : List (List Char) → List Row) (s : LogState) : LogState :=
  if s.df = none then readFiles build s else s

/-- The three aggregation entry points of `SLogAnalysis`, as far as they
touch the instance state (chart output goes to the plotting sink). -/
inductive AOp where
  | freq : AOp
  | matric : AOp
  | analyze (unit : List Char) : AOp

/-- State effect of one aggregation call: `eventFrequencyPlot` and
`eventMatricPlot` only run the lazy-build prologue (their groupbys do
not write `self.df`); `analyzeEventMatric` additionally stores the
`TIS` column computed by `__timeDistanceofAnEvent` (`tisOf` abstracts
that column's values from the rows and unit). -/
def stepOp (build : List (List Char) → List Row)
    (tisOf : List Row → List Char → List ℚ) : AOp → LogState → LogState
  | AOp.freq, s => ensureDF build s
  | AOp.matric, s => ensureDF build s
  | AOp.analyze unit, s =>
    let s1 := ensureDF build s
    match s1.df with
    | some d => { s1 with df := some ⟨d.rows, some (tisOf d.rows unit)⟩ }
    | none => s1

/-- A sequence of aggregation calls on one `SLogAnalysis` instance. -/
def runOps (build : List (List Char) → List Row)
    (tisOf : List Row → List Char → List ℚ) (ops : List AOp) (s : LogState) :
    LogState :=
  ops.foldl (fun s op => stepOp build tisOf op s) s

theorem natChars_ne_nil (n : Nat) : natChars n ≠ [] := by
  simp only [natChars, natCharsCore]
  split <;> simp

theorem intChars_ne_nil (i : Int) : intChars i ≠ [] := by
  unfold intChars
  split
  · simp
  · exact natChars_ne_nil _

theorem render_ne_nil (j : Json) : Json.render j ≠ [] := by
  cases j with
  | null => simp [Json.render]
  | bool b => cases b <;> simp [Json.render]
  | num n => simp only [Json.render]; exact intChars_ne_nil n
  | str s => simp [Json.render]
  | arr xs => simp [Json.render]
  | obj fs => simp [Json.render]

theorem renderList_eq_sepComma (xs : List Json) :
    Json.renderList xs = sepComma (xs.map Json.render) := by
  induction xs with
  | nil => rfl
  | cons x xs ih =>
    cases xs with
    | nil => simp [Json.renderList, sepComma]
    | cons y ys =>
      simp only [List.map] at ih ⊢
      simp [Json.renderList, sepComma, ih]

theorem processLine_false_commaLine (f : List Char) (b : Bool) :
    processLine false (commaLine f b) = f ++ [','] := by
  cases b <;>
    simp [processLine, commaLine, List.getLast?_concat, List.dropLast_concat]

theorem processLine_true_commaLine (f : List Char) (b : Bool) :
    processLine true (commaLine f b) = f ++ [']'] := by
  cases b <;>
    simp [processLine, commaLine, List.getLast?_concat, List.dropLast_concat]

theorem mergeBody_commaLines : ∀ (frags : List (List Char)) (nls : List Bool),
    frags ≠ [] → nls.length = frags.length →
    mergeBody (List.zipWith commaLine frags nls) = sepComma frags ++ [']']
  | [], _, h, _ => absurd rfl h
  | [f], nls, _, hlen => by
    match nls, hlen with
    | [b], _ =>
      simp only [List.zipWith, mergeBody, sepComma]
      exact processLine_true_commaLine f b
  | f :: f' :: fs, nls, _, hlen => by
    match nls, hlen with
    | b :: b' :: nls', hlen =>
      have ih := mergeBody_commaLines (f' :: fs) (b' :: nls') (by simp)
        (by simpa using hlen)
      simp only [List.zipWith] at ih
      simp only [List.zipWith, mergeBody]
      rw [ih, processLine_false_commaLine]
      simp [sepComma]

/-- Claim C1 (amended): for a non-empty selection in which every line —
the final fragment of the final file included — is a JSON object
fragment followed by a comma (optionally newline-terminated), the
merged file `readFiles` writes is exactly the canonical serialization
of a JSON array whose element count equals the total line count across
all input files. -/
theorem c1_merge_valid_array (objs : List Json) (nls : List Bool)
    (hne : objs ≠ []) (hlen : nls.length = objs.length) :
    mergeLines (List.zipWith (fun o b => commaLine (Json.render o) b) objs nls) =
      Json.render (Json.arr objs) ∧
    (List.zipWith (fun o b => commaLine (Json.render o) b) objs nls).length =
      objs.length := by
  constructor
  · have hz : List.zipWith (fun o b => commaLine (Json.render o) b) objs nls =
        List.zipWith commaLine (objs.map Json.render) nls := by
      rw [List.zipWith_map_left]
    rw [hz, mergeLines,
      mergeBody_commaLines (objs.map Json.render) nls (by simpa using hne)
        (by simpa using hlen)]
    simp [Json.render, renderList_eq_sepComma]
  · simp [hlen]

/-- Witness for C1: one file whose single line is the fragment followed
by a comma and no newline; the output is the one-element array. -/
theorem c1_merge_valid_array_witness :
    ([Json.obj []] : List Json) ≠ [] ∧
    mergeLines (List.zipWith (fun o b => commaLine (Json.render o) b)
        [Json.obj []] [false]) = Json.render (Json.arr [Json.obj []]) := by
  refine ⟨by simp, ?_⟩
  exact (c1_merge_valid_array [Json.obj []] [false] (by simp) rfl).1

/-- Counterexample to C1 as stated: the claim admits a final fragment
with no trailing comma, but on the single-file single-line input
consisting of just the object fragment (an empty JSON object with no
comma) the merge destroys the fragment's final character, producing a
file that is the serialization of the empty array — its element count
is 0, not the total line count 1. -/
theorem c1_counterexample :
    [lbrace, rbrace] = Json.render (Json.obj []) ∧
    ¬ ∃ objs : List Json, objs.length = 1 ∧
        mergeLines [[lbrace, rbrace]] = Json.render (Json.arr objs) := by
  constructor
  · simp [Json.render, Json.renderFields]
  · rintro ⟨objs, hlen, heq⟩
    have hL : mergeLines [[lbrace, rbrace]] = ['[', ']'] := by decide
    match objs, hlen with
    | [o], _ =>
      rw [hL] at heq
      simp only [Json.render, Json.renderList] at heq
      have : (Json.render o).length + 1 = 1 := by
        have := congrArg List.length heq
        simpa using this
      exact render_ne_nil o (List.length_eq_zero.mp (by omega))

/-- Claim C2 (amended): with no filters at all (empty runtime tag,
negative locality, no dates) `getLogFiles` leaves the selection empty —
it resets `self.fileList` to the empty list and neither filter branch
runs, so no file of the directory is ever appended. -/
theorem c2_no_filters_empty (dir : List Char) (dirFiles : List (List Char))
    (dateStr : Nat → List Char) :
    getLogFiles dir dirFiles dateStr [] (-1) none none = [] := rfl

/-- Counterexample to C2 as stated: a directory whose listing holds the
single regular file `a`; with no filters the selection does not
contain that file (it is empty), while the claim requires every
regular file to be selected. -/
theorem c2_counterexample :
    (['a'] : List Char) ∈ [(['a'] : List Char)] ∧
    pjoin [] ['a'] ∉ getLogFiles [] [['a']] (fun _ => []) [] (-1) none none := by
  constructor
  · simp
  · decide

/-- Claim C5: with runtime `GMT`, locality `2` and a start date `D` (no
end date), `getLogFiles` selects exactly the directory's files whose
name contains the token `GMT_2_` followed by the string form of `D` —
the token being uppercase runtime plus underscore, then locality plus
underscore, then the date string. -/
theorem c5_runtime_locality_date_filter (dir : List Char)
    (dirFiles : List (List Char)) (dateStr : Nat → List Char) (D : Nat) :
    getLogFiles dir dirFiles dateStr "GMT".toList 2 (some D) none =
      (dirFiles.filter fun f =>
        decide (("GMT_2_".toList ++ dateStr D) <:+: f)).map (pjoin dir) ∧
    ∀ g, g ∈ getLogFiles dir dirFiles dateStr "GMT".toList 2 (some D) none ↔
      ∃ f, f ∈ dirFiles ∧ ("GMT_2_".toList ++ dateStr D) <:+: f ∧ g = pjoin dir f := by
  refine ⟨rfl, fun g => ?_⟩
  show g ∈ (dirFiles.filter fun f =>
      decide (("GMT_2_".toList ++ dateStr D) <:+: f)).map (pjoin dir) ↔ _
  simp only [List.mem_map, List.mem_filter, decide_eq_true_eq]
  constructor
  · rintro ⟨f, ⟨hf, hinf⟩, rfl⟩
    exact ⟨f, hf, hinf, rfl⟩
  · rintro ⟨f, hf, hinf, rfl⟩
    exact ⟨f, ⟨hf, hinf⟩, rfl⟩

/-- Claim C6: with only a start date `D1` and an end date `D2`
(`D1 < D2`, runtime and locality at their inactive defaults so the
range branch runs), `getLogFiles` selects the union over the days `d`
of the half-open range from `D1` up to but excluding `D2` of the files
whose name contains the (here empty) runtime/locality prefix followed
by the string form of `d`; `D2` itself is never scanned. -/
theorem c6_date_range_union (dir : List Char) (dirFiles : List (List Char))
    (dateStr : Nat → List Char) (d1 d2 : Nat) (h : d1 < d2) :
    ∀ g, g ∈ getLogFiles dir dirFiles dateStr [] (-1) (some d1) (some d2) ↔
      ∃ f, f ∈ dirFiles ∧ (∃ x, x < d2 - d1 ∧ dateStr (d1 + x) <:+: f) ∧
        g = pjoin dir f := by
  intro g
  show g ∈ ((List.range (d2 - d1)).map fun x =>
      (dirFiles.filter fun f =>
        decide ((dateStr (d1 + x)) <:+: f)).map (pjoin dir)).flatten ↔ _
  simp only [List.mem_flatten, List.mem_map, List.mem_range]
  constructor
  · rintro ⟨_, ⟨x, hx, rfl⟩, hg⟩
    rcases List.mem_map.mp hg with ⟨f, hf, rfl⟩
    rcases List.mem_filter.mp hf with ⟨hfd, hinf⟩
    exact ⟨f, hfd, ⟨x, hx, of_decide_eq_true hinf⟩, rfl⟩
  · rintro ⟨f, hf, ⟨x, hx, hinf⟩, rfl⟩
    exact ⟨_, ⟨x, hx, rfl⟩,
      List.mem_map_of_mem _ (List.mem_filter.mpr ⟨hf, decide_eq_true hinf⟩)⟩

/-- Witness for C6 at a concrete directory: one file named `0`, range
from day 0 to day 1, decimal date rendering. -/
theorem c6_date_range_union_witness :
    (0 : Nat) < 1 ∧
    (['0'] ∈ getLogFiles [] [['0']] (fun n => natChars n) [] (-1) (some 0) (some 1) ↔
      ∃ f, f ∈ [(['0'] : List Char)] ∧
        (∃ x, x < 1 - 0 ∧ natChars (0 + x) <:+: f) ∧ ['0'] = pjoin [] f) :=
  ⟨Nat.zero_lt_one,
    c6_date_range_union [] [['0']] (fun n => natChars n) 0 1 Nat.zero_lt_one ['0']⟩

/-- Claim C7: the elapsed-time column `TIS` equals the raw
seconds-since-start divided by the spec's unit-divisor table (60, 3600,
86400, 2592000, case-insensitive tokens, with 1 for seconds and for any
unrecognized token), and in particular the values for unit `m` are
exactly `1/60` of the values for unit `s`. -/
theorem c7_unit_divisor_scaling (tsVals : List ℚ) (st : ℚ) :
    (∀ unit, timeDistanceofAnEvent tsVals st unit =
      tsVals.map fun i => (i - st) / specUnitDivisor unit) ∧
    timeDistanceofAnEvent tsVals st "m".toList =
      (timeDistanceofAnEvent tsVals st "s".toList).map fun i => i / 60 := by
  have key : ∀ unit, timeDistanceofAnEvent tsVals st unit =
      tsVals.map fun i => (i - st) / specUnitDivisor unit := by
    intro unit
    by_cases h1 : lowerS unit = "m".toList ∨ lowerS unit = "min".toList
    · simp only [timeDistanceofAnEvent, specUnitDivisor, if_pos h1, List.map_map]
      rfl
    · by_cases h2 : lowerS unit = "h".toList ∨ lowerS unit = "hr".toList ∨
          lowerS unit = "hour".toList
      · simp only [timeDistanceofAnEvent, specUnitDivisor, if_neg h1, if_pos h2,
          List.map_map]
        refine List.map_congr_left fun a _ => ?_
        show (a - st) / (60 * 60) = (a - st) / 3600
        norm_num
      · by_cases h3 : lowerS unit = "d".toList ∨ lowerS unit = "day".toList
        · simp only [timeDistanceofAnEvent, specUnitDivisor, if_neg h1, if_neg h2,
            if_pos h3, List.map_map]
          refine List.map_congr_left fun a _ => ?_
          show (a - st) / (60 * 60 * 24) = (a - st) / 86400
          norm_num
        · by_cases h4 : lowerS unit = "mn".toList ∨ lowerS unit = "month".toList
          · simp only [timeDistanceofAnEvent, specUnitDivisor, if_neg h1, if_neg h2,
              if_neg h3, if_pos h4, List.map_map]
            refine List.map_congr_left fun a _ => ?_
            show (a - st) / (60 * 60 * 24 * 30) = (a - st) / 2592000
            norm_num
          · simp only [timeDistanceofAnEvent, specUnitDivisor, if_neg h1, if_neg h2,
              if_neg h3, if_neg h4]
            refine List.map_congr_left fun a _ => ?_
            norm_num
  refine ⟨key, ?_⟩
  rw [key "m".toList, key "s".toList, List.map_map]
  have hdm : specUnitDivisor "m".toList = 60 := by decide
  have hds : specUnitDivisor "s".toList = 1 := by decide
  rw [hdm, hds]
  refine List.map_congr_left fun a _ => ?_
  show (a - st) / 60 = (a - st) / 1 / 60
  norm_num

/-- Claim C8: the frequency aggregation groups the dataset rows by
event name and counts each group; the per-event counts sum to the total
row count, and the set of (event name, count) pairs is exactly one pair
per distinct event name carrying that name's occurrence count. -/
theorem c8_frequency_counts (rows : List Row) :
    ((eventFrequencyCounts rows).map Prod.snd).sum = rows.length ∧
    ∀ k c, (k, c) ∈ eventFrequencyCounts rows ↔
      k ∈ rows.map Row.en ∧ c = (rows.map Row.en).count k := by
  constructor
  · simp only [eventFrequencyCounts, List.map_map]
    have h2 : (Prod.snd ∘ fun k => (k, (rows.map Row.en).count k)) =
        fun k => (rows.map Row.en).count k := rfl
    rw [h2]
    have hinst : (instBEqOfDecidableEq : BEq (List Char)) = List.instBEq := by
      apply lawful_beq_subsingleton
    have hsum := List.sum_map_count_dedup_eq_length (rows.map Row.en)
    rw [hinst] at hsum
    rw [hsum, List.length_map]
  · intro k c
    simp only [eventFrequencyCounts, List.mem_map, List.mem_dedup, Prod.mk.injEq]
    constructor
    · rintro ⟨a, ha, rfl, rfl⟩
      exact ⟨ha, rfl⟩
    · rintro ⟨hk, rfl⟩
      exact ⟨k, hk, rfl, rfl⟩

/-- Claim C4 (amended): when the bucket step `ts` does not divide the
total duration evenly, `analyzeEventMatric` pads the duration by adding
one whole step (`dur + ts`) — not by rounding up to the next multiple
of the step — and the axis is `arange(0, paddedDur, ts)`: the multiples
of `ts` below `⌊dur/ts⌋ + 2` of them in the non-dividing case,
`dur/ts` of them in the dividing case. -/
theorem c4_time_axis_padding (dur ts : ℚ) (hts : 0 < ts) (hdur : 0 ≤ dur) :
    analyzeTimeAxis dur ts =
      (List.range (if pymod dur ts = 0 then (⌊dur / ts⌋).toNat
        else (⌊dur / ts⌋).toNat + 2)).map fun i => (i : ℚ) * ts := by
  have hts' : ts ≠ 0 := ne_of_gt hts
  have hxnn : (0 : ℚ) ≤ dur / ts := div_nonneg hdur hts.le
  have hfl : (0 : ℤ) ≤ ⌊dur / ts⌋ := Int.floor_nonneg.2 hxnn
  have hmod : pymod dur ts = 0 ↔ dur / ts = (⌊dur / ts⌋ : ℚ) := by
    rw [pymod, sub_eq_zero]
    constructor
    · intro h
      exact (div_eq_iff hts').mpr (h.trans (mul_comm _ _))
    · intro h
      exact ((div_eq_iff hts').mp h).trans (mul_comm _ _)
  by_cases hm : pymod dur ts = 0
  · have hx : dur / ts = ((⌊dur / ts⌋ : ℤ) : ℚ) := hmod.mp hm
    rw [analyzeTimeAxis]
    rw [if_neg (fun h => h hm), if_pos hm, arangeQ]
    have hceil : ⌈dur / ts⌉ = ⌊dur / ts⌋ := by
      conv_lhs => rw [hx]
      exact Int.ceil_intCast _
    rw [hceil]
  · rw [analyzeTimeAxis]
    rw [if_pos hm, if_neg hm, arangeQ]
    have hlt : ((⌊dur / ts⌋ : ℤ) : ℚ) < dur / ts :=
      lt_of_le_of_ne (Int.floor_le _) fun h => hm (hmod.mpr h.symm)
    have hceil : ⌈dur / ts⌉ = ⌊dur / ts⌋ + 1 := by
      rw [Int.ceil_eq_iff]
      constructor
      · push_cast
        simpa using hlt
      · push_cast
        exact (Int.lt_floor_add_one _).le
    have hdiv : (dur + ts) / ts = dur / ts + 1 := by
      rw [add_div, div_self hts']
    rw [hdiv, Int.ceil_add_one, hceil]
    have htn : (⌊dur / ts⌋ + 1 + 1).toNat = ⌊dur / ts⌋.toNat + 2 := by omega
    rw [htn]

/-- Witness for C4 at duration 5 and step 10 (a non-dividing pair). -/
theorem c4_time_axis_padding_witness :
    analyzeTimeAxis 5 10 =
      (List.range (if pymod 5 10 = 0 then (⌊(5 : ℚ) / 10⌋).toNat
        else (⌊(5 : ℚ) / 10⌋).toNat + 2)).map (fun i => (i : ℚ) * 10) :=
  c4_time_axis_padding 5 10 (by norm_num) (by norm_num)

/-- Counterexample to C4 as stated: for duration 5 and step 10 the next
multiple of the step is 10, but the code pads the duration to 15
(adding a whole step), so the axis it computes is `[0, 10]` while the
claimed `arange(0, nextMultiple, step)` would be `[0]`. -/
theorem c4_counterexample :
    specPadToMultiple 5 10 = 10 ∧
    analyzeTimeAxis 5 10 = [0, 10] ∧
    arangeQ (specPadToMultiple 5 10) 10 = [0] ∧
    analyzeTimeAxis 5 10 ≠ arangeQ (specPadToMultiple 5 10) 10 := by
  have hc15 : (⌈(15 : ℚ) / 10⌉ : ℤ) = 2 := by
    rw [Int.ceil_eq_iff]
    norm_num
  have hc5 : (⌈(5 : ℚ) / 10⌉ : ℤ) = 1 := by
    rw [Int.ceil_eq_iff]
    norm_num
  have hc10 : (⌈(10 : ℚ) / 10⌉ : ℤ) = 1 := by
    rw [Int.ceil_eq_iff]
    norm_num
  have hpad : specPadToMultiple 5 10 = 10 := by
    rw [specPadToMultiple, if_neg]
    · rw [hc5]
      norm_num
    · rw [hc5]
      norm_num
  have hmod : pymod (5 : ℚ) 10 ≠ 0 := by
    rw [pymod]
    norm_num
  have hax : analyzeTimeAxis 5 10 = [0, 10] := by
    rw [analyzeTimeAxis, if_pos hmod, arangeQ]
    have h1 : ((5 : ℚ) + 10) / 10 = 15 / 10 := by norm_num
    rw [h1, hc15]
    simp [List.range_succ]
  have har : arangeQ 10 10 = [0] := by
    rw [arangeQ, hc10]
    simp [List.range_succ]
  refine ⟨hpad, hax, by rw [hpad]; exact har, ?_⟩
  rw [hpad, hax, har]
  simp

/-- Claim C10: the dataset is built lazily and at most once per
instance.  On any aggregation call: (1) if the dataframe is already
cached, `readFiles` is not invoked (the read counter is unchanged) and
the cached rows survive (`analyzeEventMatric` only attaches the `TIS`
column); (2) if the dataframe is absent and files are selected, the
call builds it exactly once; (3) hence along any sequence of
aggregation calls after a successful build, no further file read ever
happens. -/
theorem c10_lazy_dataset_cache (build : List (List Char) → List Row)
    (tisOf : List Row → List Char → List ℚ) :
    (∀ op s d, s.df = some d →
      (stepOp build tisOf op s).reads = s.reads ∧
      ∃ d', (stepOp build tisOf op s).df = some d' ∧ d'.rows = d.rows) ∧
    (∀ op s, s.df = none → 0 < s.fileList.length →
      (stepOp build tisOf op s).reads = s.reads + 1 ∧
      (stepOp build tisOf op s).df ≠ none) ∧
    (∀ ops s d, s.df = some d → (runOps build tisOf ops s).reads = s.reads) := by
  have hsome : ∀ op s d, s.df = some d →
      (stepOp build tisOf op s).reads = s.reads ∧
      ∃ d', (stepOp build tisOf op s).df = some d' ∧ d'.rows = d.rows := by
    intro op s d hd
    have hens : ensureDF build s = s := by
      rw [ensureDF, if_neg (by rw [hd]; exact fun h => Option.noConfusion h)]
    cases op with
    | freq => exact ⟨by simp [stepOp, hens], d, by simp [stepOp, hens, hd]⟩
    | matric => exact ⟨by simp [stepOp, hens], d, by simp [stepOp, hens, hd]⟩
    | analyze unit =>
      refine ⟨?_, ⟨d.rows, tisOf d.rows unit⟩, ?_, rfl⟩
      · simp [stepOp, hens, hd]
      · simp [stepOp, hens, hd]
  have hnone : ∀ op s, s.df = none → 0 < s.fileList.length →
      (stepOp build tisOf op s).reads = s.reads + 1 ∧
      (stepOp build tisOf op s).df ≠ none := by
    intro op s hd hfl
    have hens : ensureDF build s =
        { s with df := some ⟨build s.fileList, none⟩, reads := s.reads + 1 } := by
      rw [ensureDF, if_pos hd, readFiles, if_pos hfl]
    cases op with
    | freq => exact ⟨by simp [stepOp, hens], by simp [stepOp, hens]⟩
    | matric => exact ⟨by simp [stepOp, hens], by simp [stepOp, hens]⟩
    | analyze unit => exact ⟨by simp [stepOp, hens], by simp [stepOp, hens]⟩
  refine ⟨hsome, hnone, ?_⟩
  intro ops
  induction ops with
  | nil => intro s d _; rfl
  | cons op ops ih =>
    intro s d hd
    obtain ⟨hr, d', hd', _⟩ := hsome op s d hd
    calc (runOps build tisOf (op :: ops) s).reads
        = (runOps build tisOf ops (stepOp build tisOf op s)).reads := rfl
      _ = (stepOp build tisOf op s).reads := ih _ d' hd'
      _ = s.reads := hr

/-- Witness for C10: a state with a cached empty dataframe and read
counter 7 keeps counter 7 across a frequency call and across a
frequency-then-analyze sequence, while a cold state with one selected
file reads exactly once. -/
theorem c10_lazy_dataset_cache_witness :
    ((stepOp (fun _ => []) (fun _ _ => []) AOp.freq
        ⟨[['a']], some ⟨[], none⟩, 7⟩).reads = 7 ∧
      ∃ d', (stepOp (fun _ => []) (fun _ _ => []) AOp.freq
        ⟨[['a']], some ⟨[], none⟩, 7⟩).df = some d' ∧ d'.rows = []) ∧
    ((stepOp (fun _ => []) (fun _ _ => []) AOp.matric
        ⟨[['a']], none, 0⟩).reads = 0 + 1 ∧
      (stepOp (fun _ => []) (fun _ _ => []) AOp.matric
        ⟨[['a']], none, 0⟩).df ≠ none) ∧
    (runOps (fun _ => []) (fun _ _ => []) [AOp.freq, AOp.analyze []]
        ⟨[['a']], some ⟨[], none⟩, 7⟩).reads = 7 :=
  ⟨(c10_lazy_dataset_cache (fun _ => []) (fun _ _ => [])).1 AOp.freq
      ⟨[['a']], some ⟨[], none⟩, 7⟩ ⟨[], none⟩ rfl,
    (c10_lazy_dataset_cache (fun _ => []) (fun _ _ => [])).2.1 AOp.matric
      ⟨[['a']], none, 0⟩ rfl (by decide),
    (c10_lazy_dataset_cache (fun _ => []) (fun _ _ => [])).2.2
      [AOp.freq, AOp.analyze []] ⟨[['a']], some ⟨[], none⟩, 7⟩ ⟨[], none⟩ rfl⟩

theorem isDigit_digitChar_mod (n : Nat) : (Nat.digitChar (n % 10)).isDigit = true := by
  have h : n % 10 < 10 := Nat.mod_lt _ (by norm_num)
  generalize n % 10 = m at h
  interval_cases m <;> decide

theorem spanDigits_append : ∀ (k : Nat) (ds : List Char) (c : Char) (r : List Char),
    ds.length = k → (∀ x ∈ ds, x.isDigit = true) → c.isDigit = false →
    spanDigits k (ds ++ c :: r) = (ds, c :: r)
  | 0, [], c, r, _, _, _ => by
    simp [spanDigits]
  | k + 1, d :: ds, c, r, hk, hds, hc => by
    have hd : d.isDigit = true := hds d (by simp)
    have ih := spanDigits_append k ds c r (by simpa using hk)
      (fun x hx => hds x (by simp [hx])) hc
    simp [spanDigits, hd, ih]
  | 0, _ :: _, _, _, hk, _, _ => by simp at hk
  | _ + 1, [], _, _, hk, _, _ => by simp at hk

theorem pad4_digits : ∀ (n : Nat) (x : Char), x ∈ pad4 n → x.isDigit = true := by
  intro n x hx
  simp only [pad4, List.mem_cons, List.not_mem_nil, or_false] at hx
  rcases hx with rfl | rfl | rfl | rfl <;> exact isDigit_digitChar_mod _

theorem pad2_digits : ∀ (n : Nat) (x : Char), x ∈ pad2 n → x.isDigit = true := by
  intro n x hx
  simp only [pad2, List.mem_cons, List.not_mem_nil, or_false] at hx
  rcases hx with rfl | rfl <;> exact isDigit_digitChar_mod _

/-- The fallback parse attempted on every failure path can never
succeed under the default pattern: the rendering of `datetime.now()`
separates date and time with a space and carries no `Z`, while the
pattern demands a literal `T` (the parse fails there, whatever the
current time is). -/
theorem strptime_strOfDatetime_default (now : PyDateTime) :
    strptime (strOfDatetime now) defaultFmt = none := by
  have htok : tokenizeFmt defaultFmt = some [FmtTok.dirY, FmtTok.lit '-', FmtTok.dirm,
      FmtTok.lit '-', FmtTok.dird, FmtTok.lit 'T', FmtTok.dirH, FmtTok.lit ':',
      FmtTok.dirM, FmtTok.lit ':', FmtTok.dirS, FmtTok.lit '.', FmtTok.dirf,
      FmtTok.lit 'Z'] := by decide
  rw [strptime, htok]
  show matchToks _ (strOfDatetime now) strptimeBase = none
  rw [strOfDatetime]
  rw [matchToks]
  rw [spanDigits_append 4 (pad4 now.year) '-' _ (by simp [pad4])
    (pad4_digits now.year) (by decide)]
  rw [if_neg (by simp [pad4])]
  rw [matchToks, if_pos rfl]
  rw [matchToks]
  rw [spanDigits_append 2 (pad2 now.month) '-' _ (by simp [pad2])
    (pad2_digits now.month) (by decide)]
  rw [if_neg (by simp [pad2])]
  rw [matchToks, if_pos rfl]
  rw [matchToks]
  rw [spanDigits_append 2 (pad2 now.day) ' ' _ (by simp [pad2])
    (pad2_digits now.day) (by decide)]
  rw [if_neg (by simp [pad2])]
  rw [matchToks, if_neg (by decide)]

/-- Claim C3 evaluated on the code (the claim is about intent; the code
contradicts it): called with empty text and the default pattern — the
documented return-current-time path — `formatDateTime` raises instead
of returning the current time, because its fallback re-parses
`str(datetime.now())` (space-separated, no `Z`) under the `T`/`Z`
pattern and that `strptime` call is outside any `try`.  The same
failure escapes the `except` arm for any unparseable non-empty text. -/
theorem c3_fallback_raises (now : PyDateTime) :
    formatDateTime now [] defaultFmt = Except.error () := by
  rw [formatDateTime, strptime_strOfDatetime_default]
  rfl

/-- Claim C9: with empty text and empty pattern `formatDateTime`
returns the current time as a plain string (`str(datetime.now())`),
while every other call path that returns successfully hands back a
datetime object — the return type is not uniform across inputs. -/
theorem c9_return_type_nonuniform :
    (∀ now, formatDateTime now [] [] =
      Except.ok (FDRes.asStr (strOfDatetime now))) ∧
    (∀ now t fmt r, formatDateTime now t fmt = Except.ok r →
      (t = [] ∧ fmt = []) ∨ ∃ d, r = FDRes.asDT d) := by
  constructor
  · intro now
    rfl
  · intro now t fmt r h
    rw [formatDateTime] at h
    split at h
    · split at h
      · cases h
        exact Or.inl ⟨List.length_eq_zero.mp ‹t.length = 0›,
          List.length_eq_zero.mp ‹fmt.length = 0›⟩
      · split at h
        · cases h
          exact Or.inr ⟨_, rfl⟩
        · cases h
    · split at h
      · cases h
        exact Or.inr ⟨_, rfl⟩
      · split at h
        · cases h
          exact Or.inr ⟨_, rfl⟩
        · cases h

/-- Witness for C9: the string-returning path at a concrete instant and
the datetime-returning path at a concrete parseable timestamp. -/
theorem c9_return_type_nonuniform_witness :
    formatDateTime ⟨2026, 10, 12, 1, 2, 3, 500⟩ [] [] =
      Except.ok (FDRes.asStr (strOfDatetime ⟨2026, 10, 12, 1, 2, 3, 500⟩)) ∧
    (("2018-08-15T01:02:03.000004Z".toList = ([] : List Char) ∧
        defaultFmt = []) ∨
      ∃ d, FDRes.asDT ⟨2018, 8, 15, 1, 2, 3, 4⟩ = FDRes.asDT d) :=
  ⟨c9_return_type_nonuniform.1 ⟨2026, 10, 12, 1, 2, 3, 500⟩,
    c9_return_type_nonuniform.2 ⟨2026, 10, 12, 1, 2, 3, 500⟩
      "2018-08-15T01:02:03.000004Z".toList defaultFmt
      (FDRes.asDT ⟨2018, 8, 15, 1, 2, 3, 4⟩) rfl⟩
